import Mathlib

/-!
Verification development for the MaxScale filter-pipeline excerpt:
the maxrows row-limiting stream transducer (`server/modules/filter/maxrows/maxrows.c`),
the MySQL length-encoded integer codec (`server/core/mysql_utils.c`),
and the RocksDB cache storage back-end
(`server/modules/filter/cache/storage/storage_rocksdb/rocksdbstorage.cc`).

Bytes are modelled as `Nat` (each in 0..255 on the wire), buffers as `List Nat`,
and the `GWBUF*` response accumulator as `Option (List Nat)` (`none` models the
NULL pointer after the buffer has been handed upstream).  `gwbuf_copy_data`
copies only the bytes that are available; the bytes of the destination array it
leaves untouched are uninitialised stack memory in C and are modelled as 0 here.
The C `while` loops are modelled as fuel-indexed recursions; every loop
iteration advances the parse offset by at least 4 bytes, so a fuel of
`buflen + 1` (supplied by the wrappers) can never be exhausted before the
loop guard exits.
-/

namespace MaxScale

/-- Read byte `i` of a buffer, 0 when out of range (uninitialised memory model). -/
def byteAt (l : List Nat) (i : Nat) : Nat := l.getD i 0

/-- Pad a list with zero bytes up to length `n` (uninitialised tail of a C array). -/
def padTo (n : Nat) (l : List Nat) : List Nat := l ++ List.replicate (n - l.length) 0

/-- Model of `gwbuf_copy_data(buf, offset, len, dst)`: copies the available bytes
starting at `offset`, the rest of `dst` stays 0 (see module comment). -/
def copyBytes (d : Option (List Nat)) (off n : Nat) : List Nat :=
  padTo n (((d.getD []).drop off).take n)

/-- `MYSQL_GET_PAYLOAD_LEN`: 3-byte little-endian payload length of a packet header. -/
def payloadLenOf (header : List Nat) : Nat :=
  byteAt header 0 + 256 * byteAt header 1 + 65536 * byteAt header 2

/-- `mxs_leint_bytes` from `server/core/mysql_utils.c`: length in bytes of a
length-encoded integer, from its first byte.  Note the C `else` branch returns 9
for every first byte that is not `< 0xfb`, `0xfc` or `0xfd` (so also for `0xfb`
and `0xff`). -/
def mxs_leint_bytes (bs : List Nat) : Nat :=
  let val := byteAt bs 0
  if val < 0xfb then 1
  else if val = 0xfc then 3
  else if val = 0xfd then 4
  else 9

/-- `mxs_leint_value` from `server/core/mysql_utils.c`, together with the flag
telling whether the `MXS_ERROR` branch ran.  The C function initialises `sz = 0`,
fills it by `memcpy` for the multi-byte encodings, and in the final `else`
(first byte `0xfb` or `0xff`) logs an error and falls through, returning 0. -/
def mxs_leint_value_err (bs : List Nat) : Nat × Bool :=
  let c := byteAt bs 0
  if c < 0xfb then (c, false)
  else if c = 0xfc then (byteAt bs 1 + 256 * byteAt bs 2, false)
  else if c = 0xfd then (byteAt bs 1 + 256 * byteAt bs 2 + 65536 * byteAt bs 3, false)
  else if c = 0xfe then
    (byteAt bs 1 + 256 * byteAt bs 2 + 65536 * byteAt bs 3 + 16777216 * byteAt bs 4
      + 4294967296 * byteAt bs 5 + 1099511627776 * byteAt bs 6
      + 281474976710656 * byteAt bs 7 + 72057594037927936 * byteAt bs 8, false)
  else (0, true)

/-- The `uint64_t` value returned by `mxs_leint_value`. -/
def mxs_leint_value (bs : List Nat) : Nat := (mxs_leint_value_err bs).1

/-! ## The maxrows filter (`server/modules/filter/maxrows/maxrows.c`) -/

/-- `maxrows_session_state_t`. -/
inductive MRPhase where
  | expectingResponse
  | expectingFields
  | expectingRows
  | expectingNothing
  | ignoring
  deriving DecidableEq, Repr

/-- `MAXROWS_CONFIG` (the `debug` bitfield only gates log output and is omitted). -/
structure MRConfig where
  maxRows : Nat
  maxSize : Nat
  deriving DecidableEq, Repr

/-- `MAXROWS_SESSION_DATA` together with its embedded `MAXROWS_RESPONSE_STATE`. -/
structure MRState where
  data : Option (List Nat)
  nTotal : Nat
  nFields : Nat
  nRows : Nat
  offset : Nat
  phase : MRPhase
  largePacket : Bool
  discard : Bool
  deriving DecidableEq, Repr

/-- The synthetic OK packet of `send_ok_upstream` (the C literals `07, 00, 00, 01,
00, 00, 00, 02, 00, 00, 00` are octal, i.e. these decimal values). -/
def okBytes : List Nat := [7, 0, 0, 1, 0, 0, 0, 2, 0, 0, 0]

/-- `send_upstream`: hand the accumulated buffer to the upstream and clear it.
With a NULL buffer the C code would fail its `ss_dassert` and pass NULL on;
modelled as emitting nothing. -/
def send_upstream (st : MRState) : MRState × List (List Nat) :=
  match st.data with
  | some b => ({st with data := none}, [b])
  | none => ({st with data := none}, [])

/-- `send_ok_upstream`: emit the 11-byte synthetic OK packet, free the buffer. -/
def send_ok_upstream (st : MRState) : MRState × List (List Nat) :=
  ({st with data := none}, [okBytes])

/-- The outcome of one iteration of a handler `while` loop: leave the loop,
send upstream (the synthetic OK when the flag is set, the buffer otherwise)
and keep looping, or just keep looping. -/
inductive LoopAct where
  | stop (st : MRState)
  | send (useOk : Bool) (st : MRState)
  | cont (st : MRState)
  deriving DecidableEq, Repr

/-- The state carried by a `LoopAct`. -/
def LoopAct.st : LoopAct → MRState
  | .stop s => s
  | .send _ s => s
  | .cont s => s

/-- One iteration of the `while` loop of `handle_rows`, as the source dispatches
on the packet at the current offset.  `buflen` is the `gwbuf_length` captured at
function entry.  `MAXROWS_EOF_PACKET_LEN = 9` and the EOF status flags at packet
offset 7 (`MAXROWS_MYSQL_EOF_PACKET_FLAGS_OFFSET`) come from `maxrows.h`, which
matches the spec's wire constants; `SERVER_MORE_RESULTS_EXIST = 0x0008`.  The
source assigns the next session state after each send; the send does not read
it, so it is merged into the state update here. -/
def handle_rows_body (cfg : MRConfig) (buflen : Nat) (st : MRState) : LoopAct :=
  if 4 ≤ buflen - st.offset then
    let pendingLarge := st.largePacket
    let header := copyBytes st.data st.offset 9
    let packetlen := 4 + payloadLenOf header
    if st.offset + packetlen ≤ buflen then
      if pendingLarge = true ∧ 4 ≤ packetlen ∧ packetlen < 9 then
        -- large-packet terminator: count the logical row and break
        .stop {st with offset := st.offset + packetlen, nRows := st.nRows + 1}
      else if packetlen = 0xffffff + 4 then
        -- start or middle of a large (> 16MiB) packet: mark, skip, break
        .stop {st with largePacket := true, offset := st.offset + packetlen}
      else
        -- large_packet is reset before the switch on the command byte
        let cmd := byteAt header 4
        if cmd = 0xff then
          -- ERR after the rows: forward or substitute, expect nothing further
          .send st.discard {st with offset := st.offset + packetlen, largePacket := false,
                                    phase := MRPhase.expectingNothing}
        else if cmd = 0xfe then
          if packetlen < 9 then
            -- EOF packet shorter than MAXROWS_EOF_PACKET_LEN: always synthetic OK
            .send true {st with offset := st.offset + packetlen, largePacket := false,
                                phase := MRPhase.expectingNothing}
          else
            let flags := byteAt header 7 + 256 * byteAt header 8
            if flags &&& 8 = 0 then
              -- end of the resultset
              .send st.discard {st with offset := st.offset + packetlen, largePacket := false,
                                        phase := MRPhase.expectingNothing}
            else
              -- SERVER_MORE_RESULTS_EXIST: another resultset follows
              .cont {st with offset := st.offset + packetlen, largePacket := false,
                             phase := MRPhase.expectingResponse}
        else
          -- 0xfb (NULL) and any other first byte: a row packet; large_packet
          -- was just reset, so the n_rows guard of the source increments here
          let st2 := {st with offset := st.offset + packetlen, largePacket := false}
          let st3 := if st2.largePacket = true then st2 else {st2 with nRows := st2.nRows + 1}
          let st4 := if st3.discard = false ∧ cfg.maxRows < st3.nRows
                     then {st3 with discard := true} else st3
          .cont st4
    else .stop st -- incomplete packet: await more data
  else .stop st

/-- The `while` loop of `handle_rows`; the fuel only bounds the iteration count
(see module comment). -/
def handle_rows_loop (cfg : MRConfig) (buflen : Nat) : Nat → MRState → MRState × List (List Nat)
  | 0, st => (st, [])
  | fuel + 1, st =>
    match handle_rows_body cfg buflen st with
    | .stop st1 => (st1, [])
    | .send useOk st1 =>
      let r := if useOk = true then send_ok_upstream st1 else send_upstream st1
      let r2 := handle_rows_loop cfg buflen fuel r.1
      (r2.1, r.2 ++ r2.2)
    | .cont st1 => handle_rows_loop cfg buflen fuel st1

/-- `handle_rows`: captures `buflen` at entry and runs the loop. -/
def handle_rows (cfg : MRConfig) (st : MRState) : MRState × List (List Nat) :=
  let buflen := (st.data.getD []).length
  handle_rows_loop cfg buflen (buflen + 1) st

/-- One iteration of the `while` loop of `handle_expecting_fields`: an EOF
packet moves to row handling (`send` is never produced here; the recursion into
`handle_rows` is done by the loop), any other packet is a field definition. -/
def handle_fields_body (buflen : Nat) (st : MRState) : LoopAct :=
  if 4 ≤ buflen - st.offset then
    let header := copyBytes st.data st.offset 5
    let packetlen := 4 + payloadLenOf header
    if st.offset + packetlen ≤ buflen then
      if byteAt header 4 = 0xfe then
        -- EOF after the fields
        .send false {st with offset := st.offset + packetlen, phase := MRPhase.expectingRows}
      else
        .cont {st with offset := st.offset + packetlen, nFields := st.nFields + 1}
    else .stop st
  else .stop st

/-- The `while` loop of `handle_expecting_fields`.  A `send` action here means
"EOF seen": the source sets the state to rows handling, calls `handle_rows`
and keeps looping. -/
def handle_fields_loop (cfg : MRConfig) (buflen : Nat) : Nat → MRState → MRState × List (List Nat)
  | 0, st => (st, [])
  | fuel + 1, st =>
    match handle_fields_body buflen st with
    | .stop st1 => (st1, [])
    | .send _ st1 =>
      let r := handle_rows cfg st1
      let r2 := handle_fields_loop cfg buflen fuel r.1
      (r2.1, r.2 ++ r2.2)
    | .cont st1 => handle_fields_loop cfg buflen fuel st1

/-- `handle_expecting_fields`. -/
def handle_expecting_fields (cfg : MRConfig) (st : MRState) : MRState × List (List Nat) :=
  let buflen := (st.data.getD []).length
  handle_fields_loop cfg buflen (buflen + 1) st

/-- `handle_expecting_response`.  Note that the second `gwbuf_copy_data`, which
fetches the extension bytes of the field-count length-encoded integer, reads at
the fixed buffer offset `MYSQL_HEADER_LEN + 1 = 5` and not at
`res.offset + MYSQL_HEADER_LEN + 1`, exactly as the C source does. -/
def handle_expecting_response (cfg : MRConfig) (st0 : MRState) : MRState × List (List Nat) :=
  let buflen := (st0.data.getD []).length
  let st := {st0 with nFields := 0, nTotal := 0, largePacket := false}
  if 4 + 1 ≤ buflen then
    let header := copyBytes st.data st.offset 5
    let cmd := byteAt header 4
    if cmd = 0x00 ∨ cmd = 0xff then
      -- the source assigns the next state after the send; merged into the
      -- update, which the send does not read
      if st.discard = true then
        send_ok_upstream {st with phase := MRPhase.expectingNothing}
      else
        send_upstream {st with phase := MRPhase.ignoring}
    else if cmd = 0xfb then
      send_upstream {st with phase := MRPhase.ignoring}
    else
      if st.nTotal ≠ 0 then
        handle_expecting_fields cfg {st with phase := .expectingFields}
      else
        let nBytes := mxs_leint_bytes (header.drop 4)
        if 4 + nBytes ≤ buflen then
          let ext := copyBytes st.data (4 + 1) (nBytes - 1)
          let st1 := {st with nTotal := mxs_leint_value (byteAt header 4 :: ext),
                              offset := st.offset + 4 + nBytes,
                              phase := .expectingFields}
          handle_expecting_fields cfg st1
        else (st, [])
  else (st, [])

/-- `handle_expecting_nothing`: logs and forwards the buffer as-is. -/
def handle_expecting_nothing (st : MRState) : MRState × List (List Nat) :=
  send_upstream st

/-- `handle_ignoring_response`: forwards the buffer as-is. -/
def handle_ignoring_response (st : MRState) : MRState × List (List Nat) :=
  send_upstream st

/-- `clientReply`: append the chunk to the pending buffer, run the size guard,
and dispatch on the session phase. -/
def clientReply (cfg : MRConfig) (st0 : MRState) (chunk : List Nat) : MRState × List (List Nat) :=
  let st1 := {st0 with data := some (st0.data.getD [] ++ chunk)}
  let st2 := if st1.phase ≠ .ignoring ∧ st1.discard = false
                ∧ cfg.maxSize < (st1.data.getD []).length
             then {st1 with discard := true} else st1
  match st2.phase with
  | .expectingFields => handle_expecting_fields cfg st2
  | .expectingNothing => handle_expecting_nothing st2
  | .expectingResponse => handle_expecting_response cfg st2
  | .expectingRows => handle_rows cfg st2
  | .ignoring => handle_ignoring_response st2

/-- `MYSQL_COM_QUERY`. -/
def COM_QUERY : Nat := 0x03

/-- `MYSQL_COM_STMT_EXECUTE`. -/
def COM_STMT_EXECUTE : Nat := 0x17

/-- `routeQuery`: reset the response state; `COM_QUERY` and `COM_STMT_EXECUTE`
arm the parser, anything else makes the reply be ignored.  The packet itself is
forwarded downstream unchanged (not modelled). -/
def routeQuery (packet : List Nat) : MRState :=
  { data := none, nTotal := 0, nFields := 0, nRows := 0, offset := 0,
    phase := if byteAt packet 4 = COM_QUERY ∨ byteAt packet 4 = COM_STMT_EXECUTE
             then .expectingResponse else .ignoring,
    largePacket := false, discard := false }

/-! ## SHA-512 (OpenSSL's `SHA512`, used by the cache key derivation)

The hash itself lives in OpenSSL, outside this repository; it is modelled here
as the FIPS 180-4 SHA-512 function, which is what the spec names ("SHA-512 in
the reference").  64-bit words are `Nat` reduced modulo `2 ^ 64`. -/

/-- 64-bit rotate right. -/
def rotr64 (x n : Nat) : Nat := ((x >>> n) ||| (x <<< (64 - n))) % 18446744073709551616

/-- SHA-512 `Ch`. -/
def shaCh (x y z : Nat) : Nat := (x &&& y) ^^^ ((x ^^^ 18446744073709551615) &&& z)

/-- SHA-512 `Maj`. -/
def shaMaj (x y z : Nat) : Nat := (x &&& y) ^^^ (x &&& z) ^^^ (y &&& z)

/-- SHA-512 big sigma 0. -/
def bigSig0 (x : Nat) : Nat := rotr64 x 28 ^^^ rotr64 x 34 ^^^ rotr64 x 39

/-- SHA-512 big sigma 1. -/
def bigSig1 (x : Nat) : Nat := rotr64 x 14 ^^^ rotr64 x 18 ^^^ rotr64 x 41

/-- SHA-512 small sigma 0. -/
def smallSig0 (x : Nat) : Nat := rotr64 x 1 ^^^ rotr64 x 8 ^^^ (x >>> 7)

/-- SHA-512 small sigma 1. -/
def smallSig1 (x : Nat) : Nat := rotr64 x 19 ^^^ rotr64 x 61 ^^^ (x >>> 6)

/-- The 80 SHA-512 round constants. -/
def sha512K : List Nat :=
  [4794697086780616226, 8158064640168781261, 13096744586834688815,
   16840607885511220156, 4131703408338449720, 6480981068601479193,
   10538285296894168987, 12329834152419229976, 15566598209576043074,
   1334009975649890238, 2608012711638119052, 6128411473006802146,
   8268148722764581231, 9286055187155687089, 11230858885718282805,
   13951009754708518548, 16472876342353939154, 17275323862435702243,
   1135362057144423861, 2597628984639134821, 3308224258029322869,
   5365058923640841347, 6679025012923562964, 8573033837759648693,
   10970295158949994411, 12119686244451234320, 12683024718118986047,
   13788192230050041572, 14330467153632333762, 15395433587784984357,
   489312712824947311, 1452737877330783856, 2861767655752347644,
   3322285676063803686, 5560940570517711597, 5996557281743188959,
   7280758554555802590, 8532644243296465576, 9350256976987008742,
   10552545826968843579, 11727347734174303076, 12113106623233404929,
   14000437183269869457, 14369950271660146224, 15101387698204529176,
   15463397548674623760, 17586052441742319658, 1182934255886127544,
   1847814050463011016, 2177327727835720531, 2830643537854262169,
   3796741975233480872, 4115178125766777443, 5681478168544905931,
   6601373596472566643, 7507060721942968483, 8399075790359081724,
   8693463985226723168, 9568029438360202098, 10144078919501101548,
   10430055236837252648, 11840083180663258601, 13761210420658862357,
   14299343276471374635, 14566680578165727644, 15097957966210449927,
   16922976911328602910, 17689382322260857208, 500013540394364858,
   748580250866718886, 1242879168328830382, 1977374033974150939,
   2944078676154940804, 3659926193048069267, 4368137639120453308,
   4836135668995329356, 5532061633213252278, 6448918945643986474,
   6902733635092675308, 7801388544844847127]

/-- The SHA-512 initial hash value. -/
def sha512H0 : List Nat :=
  [7640891576956012808, 13503953896175478587,
   4354685564936845355, 11912009170470909681,
   5840696475078001361, 11170449401992604703,
   2270897969802886507, 6620516959819538809]

/-- Big-endian word from a list of 8 bytes. -/
def wordOfBytesBE (bs : List Nat) : Nat := bs.foldl (fun a b => a * 256 + b % 256) 0

/-- Big-endian bytes (most significant first) of a 64-bit word. -/
def bytesOfWordBE (w : Nat) : List Nat :=
  [w / 72057594037927936 % 256, w / 281474976710656 % 256, w / 1099511627776 % 256,
   w / 4294967296 % 256, w / 16777216 % 256, w / 65536 % 256, w / 256 % 256, w % 256]

/-- Split a list into chunks of `n` elements (fuelled; fuel `l.length` suffices). -/
def chunksAux (n : Nat) : Nat → List Nat → List (List Nat)
  | 0, _ => []
  | _, [] => []
  | fuel + 1, l => l.take n :: chunksAux n fuel (l.drop n)

/-- SHA-512 padding: append `0x80`, zeros, and the 128-bit big-endian bit length. -/
def sha512Pad (m : List Nat) : List Nat :=
  let k := (128 - (m.length + 17) % 128) % 128
  m ++ 0x80 :: List.replicate k 0
    ++ List.replicate 8 0 ++ bytesOfWordBE (8 * m.length % 18446744073709551616)

/-- Extend the (reversed) 16-word message block to the full 80-word schedule. -/
def sha512Extend : Nat → List Nat → List Nat
  | 0, w => w
  | n + 1, w =>
    sha512Extend n
      (((smallSig1 (byteAt w 1) + byteAt w 6 + smallSig0 (byteAt w 14) + byteAt w 15)
          % 18446744073709551616) :: w)

/-- One SHA-512 round on the working variables `[a, b, c, d, e, f, g, h]`. -/
def sha512Round (st : List Nat) (wk : Nat × Nat) : List Nat :=
  let a := byteAt st 0
  let b := byteAt st 1
  let c := byteAt st 2
  let d := byteAt st 3
  let e := byteAt st 4
  let f := byteAt st 5
  let g := byteAt st 6
  let h := byteAt st 7
  let t1 := (h + bigSig1 e + shaCh e f g + wk.2 + wk.1) % 18446744073709551616
  let t2 := (bigSig0 a + shaMaj a b c) % 18446744073709551616
  [(t1 + t2) % 18446744073709551616, a, b, c, (d + t1) % 18446744073709551616, e, f, g]

/-- SHA-512 compression of one 128-byte block into the chaining value `h`. -/
def sha512Compress (h : List Nat) (block : List Nat) : List Nat :=
  let w16 := (chunksAux 8 block.length block).map wordOfBytesBE
  let w := (sha512Extend 64 w16.reverse).reverse
  let final := (w.zip sha512K).foldl sha512Round h
  List.zipWith (fun x y => (x + y) % 18446744073709551616) h final

/-- SHA-512 of a byte list: the 64-byte digest. -/
def sha512 (m : List Nat) : List Nat :=
  let padded := sha512Pad m
  let hFinal := (chunksAux 128 padded.length padded).foldl sha512Compress sha512H0
  (hFinal.map bytesOfWordBE).flatten

/-! ## The cache key derivation (`RocksDBStorage::Get_key`) -/

/-- `cache_result_t` codes.  `cache.h` is not part of the excerpt; modelled from
the spec as a bitset with distinct bits so that one reply can carry both
`Ok`/`NotFound` and `Stale`. -/
def CACHE_RESULT_OK : Nat := 1

/-- `CACHE_RESULT_NOT_FOUND` (see `CACHE_RESULT_OK`). -/
def CACHE_RESULT_NOT_FOUND : Nat := 2

/-- `CACHE_RESULT_STALE` (see `CACHE_RESULT_OK`). -/
def CACHE_RESULT_STALE : Nat := 4

/-- `CACHE_RESULT_ERROR` (see `CACHE_RESULT_OK`). -/
def CACHE_RESULT_ERROR : Nat := 8

/-- `CACHE_RESULT_OUT_OF_RESOURCES` (see `CACHE_RESULT_OK`). -/
def CACHE_RESULT_OUT_OF_RESOURCES : Nat := 16

/-- `CACHE_FLAGS_INCLUDE_STALE` (see `CACHE_RESULT_OK`): the single caller flag. -/
def CACHE_FLAGS_INCLUDE_STALE : Nat := 1

/-- Lexicographic order on byte strings: `std::string::operator<`
(`char_traits<char>::compare` plus the shorter-is-a-prefix rule). -/
def ltBytes : List Nat → List Nat → Bool
  | [], [] => false
  | [], _ :: _ => true
  | _ :: _, [] => false
  | a :: as, b :: bs => if a < b then true else if b < a then false else ltBytes as bs

/-- The database name a table reference contributes: the prefix before the first
`'.'` (byte 46) when the classifier returned a qualified `db.table` name,
otherwise the session's default database (if any); `strchr` / `*zDot = 0` in
the source.  Names are byte strings (`char*`). -/
def dbOfTable (defaultDb : Option (List Nat)) (t : List Nat) : Option (List Nat) :=
  if 46 ∈ t then some (t.takeWhile (fun c => c ≠ 46)) else defaultDb

/-- The database names contributed by the classifier's table list, in order,
before they are inserted into the `std::set`. -/
def rawDbs (defaultDb : Option (List Nat)) (tables : List (List Nat)) : List (List Nat) :=
  tables.filterMap (dbOfTable defaultDb)

/-- Insertion into a sorted duplicate-free list: the `std::set<std::string>`
insert. -/
def insertSet (x : List Nat) : List (List Nat) → List (List Nat)
  | [] => [x]
  | y :: ys =>
    if ltBytes x y = true then x :: y :: ys
    else if x = y then y :: ys
    else y :: insertSet x ys

/-- The contents of the `dbs` set after the insertion loop, in ascending order. -/
def collectDbs (defaultDb : Option (List Nat)) (tables : List (List Nat)) : List (List Nat) :=
  (rawDbs defaultDb tables).foldl (fun s db => insertSet db s) []

/-- `RocksDBStorage::Get_key`: zero the key, hash the sorted separator-free
concatenation of the referenced databases into the first half and the raw SQL
into the second half; always returns `CACHE_RESULT_OK`.  The key buffer is
`CACHE_KEY_MAXLEN` bytes of which only the `2 * SHA512_DIGEST_LENGTH = 128`
written bytes are ever used by the store; the model keeps those 128 bytes. -/
def Get_key (defaultDb : Option (List Nat)) (sql : List Nat) (tables : List (List Nat)) :
    Nat × List Nat :=
  let tag := (collectDbs defaultDb tables).flatten
  (CACHE_RESULT_OK, sha512 tag ++ sha512 sql)

/-! ## The cache back-end TTL logic (`RocksDBStorage::get_value`) -/

/-- `RocksDBInternals::TS_LENGTH`.  Modelled from the spec: `rocksdbinternals.hh`
is not part of the excerpt; the TTL-aware store appends a fixed 32-bit
timestamp suffix to each stored value. -/
def TS_LENGTH : Nat := 4

/-- Little-endian 4-byte encoding of a timestamp. -/
def tsBytesLE (ts : Nat) : List Nat :=
  [ts % 256, ts / 256 % 256, ts / 65536 % 256, ts / 16777216 % 256]

/-- `RocksDBInternals::extract_timestamp`.  Modelled from the spec: reads the
`TS_LENGTH`-byte suffix of the stored value as the `int32_t` timestamp. -/
def extract_timestamp (v : List Nat) : Int :=
  let u := byteAt v (v.length - 4) + 256 * byteAt v (v.length - 3)
    + 65536 * byteAt v (v.length - 2) + 16777216 * byteAt v (v.length - 1)
  if u < 2147483648 then (u : Int) else (u : Int) - 4294967296

/-- `RocksDBStorage::get_value`, given the bytes the underlying store returned
for the key (`none` models `Status::kNotFound`) and the current time `now`.
Returns the `cache_result_t` bitset, the payload handed back (without the
timestamp suffix), and whether the stale entry was deleted.  The `gwbuf_alloc`
of the result copy is modelled as succeeding. -/
def get_value (hardTtl softTtl : Nat) (flags : Nat) (now : Int)
    (fetched : Option (List Nat)) : Nat × Option (List Nat) × Bool :=
  match fetched with
  | none => (CACHE_RESULT_NOT_FOUND, none, false)
  | some value =>
    if TS_LENGTH ≤ value.length then
      let timestamp := extract_timestamp value
      let isHardStale := if hardTtl = 0 then false
                         else decide ((hardTtl : Int) < now - timestamp)
      let isSoftStale := if softTtl = 0 then false
                         else decide ((softTtl : Int) < now - timestamp)
      let includeStale := flags &&& CACHE_FLAGS_INCLUDE_STALE ≠ 0
      if isHardStale = true then
        (CACHE_RESULT_NOT_FOUND, none, true)
      else if isSoftStale = false ∨ includeStale then
        (if isSoftStale = true then CACHE_RESULT_OK ||| CACHE_RESULT_STALE else CACHE_RESULT_OK,
         some (value.take (value.length - TS_LENGTH)), false)
      else
        (CACHE_RESULT_NOT_FOUND ||| CACHE_RESULT_STALE, none, false)
    else
      (CACHE_RESULT_ERROR, none, false)

/-! ## Helper lemmas -/

theorem byteAt_eq_getElem? (l : List Nat) (i : Nat) : byteAt l i = (l[i]?).getD 0 := by
  simp [byteAt]

theorem byteAt_append_add (l1 l2 : List Nat) (i : Nat) :
    byteAt (l1 ++ l2) (l1.length + i) = byteAt l2 i := by
  simp [byteAt_eq_getElem?, List.getElem?_append_right (Nat.le_add_right _ _)]

theorem byteAt_copyBytes (d : Option (List Nat)) (off n i : Nat) (h : i < n) :
    byteAt (copyBytes d off n) i = byteAt (d.getD []) (off + i) := by
  set l := d.getD [] with hl
  set t := (l.drop off).take n with ht
  by_cases hi : i < t.length
  · rw [copyBytes, padTo, byteAt_eq_getElem?, List.getElem?_append_left hi, ht,
      List.getElem?_take_of_lt h, List.getElem?_drop, byteAt_eq_getElem?]
  · push_neg at hi
    have h1 : byteAt (copyBytes d off n) i = 0 := by
      rw [copyBytes, padTo, byteAt_eq_getElem?, List.getElem?_append_right hi, ← ht]
      rw [List.getElem?_replicate]
      have : t.length ≤ n := by rw [ht]; simp [List.length_take]
      split <;> simp
    have h2 : byteAt l (off + i) = 0 := by
      have hlen : t.length = min n (l.length - off) := by rw [ht]; simp [List.length_take]
      have : l.length ≤ off + i := by omega
      rw [byteAt_eq_getElem?, List.getElem?_eq_none this]
      rfl
    rw [h1, h2]

theorem copyBytes_none (off n : Nat) : copyBytes none off n = List.replicate n 0 := by
  simp [copyBytes, padTo]

theorem byteAt_replicate_zero (n i : Nat) : byteAt (List.replicate n 0) i = 0 := by
  rw [byteAt_eq_getElem?, List.getElem?_replicate]
  split <;> simp

/-- `send_upstream` only clears the buffer. -/
theorem send_upstream_fst (st : MRState) : (send_upstream st).1 = {st with data := none} := by
  cases h : st.data <;> simp [send_upstream, h]

theorem send_upstream_snd (E : List Nat) (st : MRState)
    (h : st.data = some E ∨ st.data = none) :
    ∀ o ∈ (send_upstream st).2, o = E := by
  rcases h with h | h <;> simp [send_upstream, h]

theorem send_ok_upstream_fst (st : MRState) :
    (send_ok_upstream st).1 = {st with data := none} := rfl

theorem send_ok_upstream_snd (st : MRState) : (send_ok_upstream st).2 = [okBytes] := rfl

/-- The state produced by one iteration of the row loop keeps the pending
buffer unchanged. -/
theorem handle_rows_body_data (cfg : MRConfig) (buflen : Nat) (st : MRState) :
    ((handle_rows_body cfg buflen st).st).data = st.data := by
  simp only [handle_rows_body]
  split_ifs <;> rfl

/-- One iteration of the row loop never clears the discard flag. -/
theorem handle_rows_body_discard (cfg : MRConfig) (buflen : Nat) (st : MRState)
    (h : st.discard = true) : ((handle_rows_body cfg buflen st).st).discard = true := by
  simp only [handle_rows_body]
  split_ifs <;> first | exact h | rfl

/-- The row-handling loop either keeps the pending buffer it started with or
has handed it on (`none`); it never replaces it by a different buffer. -/
theorem handle_rows_loop_data (cfg : MRConfig) (buflen : Nat) (E : List Nat) :
    ∀ fuel st, st.data = some E ∨ st.data = none →
      (handle_rows_loop cfg buflen fuel st).1.data = some E
        ∨ (handle_rows_loop cfg buflen fuel st).1.data = none := by
  intro fuel
  induction fuel with
  | zero => intro st h; exact h
  | succ n ih =>
    intro st h
    have hd := handle_rows_body_data cfg buflen st
    cases hact : handle_rows_body cfg buflen st with
    | stop st1 =>
      rw [hact] at hd
      simp only [handle_rows_loop, hact]
      rw [LoopAct.st] at hd
      rw [hd]; exact h
    | send useOk st1 =>
      simp only [handle_rows_loop, hact]
      cases useOk
      · exact ih _ (Or.inr (by simp [send_upstream_fst]))
      · exact ih _ (Or.inr rfl)
    | cont st1 =>
      rw [hact] at hd
      rw [LoopAct.st] at hd
      simp only [handle_rows_loop, hact]
      exact ih _ (by rw [hd]; exact h)

/-- Everything the row-handling loop sends upstream is either the buffer it
started with, whole, or the synthetic OK packet. -/
theorem handle_rows_loop_outs (cfg : MRConfig) (buflen : Nat) (E : List Nat) :
    ∀ fuel st, st.data = some E ∨ st.data = none →
      ∀ o ∈ (handle_rows_loop cfg buflen fuel st).2, o = E ∨ o = okBytes := by
  intro fuel
  induction fuel with
  | zero => intro st _ o ho; simp [handle_rows_loop] at ho
  | succ n ih =>
    intro st h
    have hd := handle_rows_body_data cfg buflen st
    cases hact : handle_rows_body cfg buflen st with
    | stop st1 =>
      intro o ho
      simp [handle_rows_loop, hact] at ho
    | send useOk st1 =>
      rw [hact] at hd
      rw [LoopAct.st] at hd
      simp only [handle_rows_loop, hact]
      intro o ho
      cases useOk with
      | false =>
        simp only [Bool.false_eq_true, if_false] at ho
        rcases List.mem_append.1 ho with ho1 | ho1
        · exact Or.inl (send_upstream_snd E st1 (by rw [hd]; exact h) o ho1)
        · exact ih _ (Or.inr (by simp [send_upstream_fst])) o ho1
      | true =>
        simp only [if_true] at ho
        rcases List.mem_append.1 ho with ho1 | ho1
        · exact Or.inr (by simpa [send_ok_upstream] using ho1)
        · exact ih _ (Or.inr rfl) o ho1
    | cont st1 =>
      rw [hact] at hd
      rw [LoopAct.st] at hd
      simp only [handle_rows_loop, hact]
      exact ih _ (by rw [hd]; exact h)

/-- The row-handling loop never clears the discard flag. -/
theorem handle_rows_loop_discard (cfg : MRConfig) (buflen : Nat) :
    ∀ fuel st, st.discard = true →
      (handle_rows_loop cfg buflen fuel st).1.discard = true := by
  intro fuel
  induction fuel with
  | zero => intro st h; exact h
  | succ n ih =>
    intro st h
    have hdis := handle_rows_body_discard cfg buflen st h
    cases hact : handle_rows_body cfg buflen st with
    | stop st1 =>
      rw [hact] at hdis
      rw [LoopAct.st] at hdis
      simp only [handle_rows_loop, hact]
      exact hdis
    | send useOk st1 =>
      rw [hact] at hdis
      rw [LoopAct.st] at hdis
      simp only [handle_rows_loop, hact]
      cases useOk
      · exact ih _ (by simp [send_upstream_fst, hdis])
      · exact ih _ (by simp [send_ok_upstream, hdis])
    | cont st1 =>
      rw [hact] at hdis
      rw [LoopAct.st] at hdis
      simp only [handle_rows_loop, hact]
      exact ih _ hdis

/-- Wrapper-level restatement of `handle_rows_loop_data`. -/
theorem handle_rows_data (cfg : MRConfig) (E : List Nat) (st : MRState)
    (h : st.data = some E ∨ st.data = none) :
    (handle_rows cfg st).1.data = some E ∨ (handle_rows cfg st).1.data = none :=
  handle_rows_loop_data cfg _ E _ st h

/-- Wrapper-level restatement of `handle_rows_loop_outs`. -/
theorem handle_rows_outs (cfg : MRConfig) (E : List Nat) (st : MRState)
    (h : st.data = some E ∨ st.data = none) :
    ∀ o ∈ (handle_rows cfg st).2, o = E ∨ o = okBytes :=
  handle_rows_loop_outs cfg _ E _ st h

/-- Wrapper-level restatement of `handle_rows_loop_discard`. -/
theorem handle_rows_discard (cfg : MRConfig) (st : MRState) (h : st.discard = true) :
    (handle_rows cfg st).1.discard = true :=
  handle_rows_loop_discard cfg _ _ st h

/-- The state produced by one iteration of the field loop keeps the pending
buffer unchanged. -/
theorem handle_fields_body_data (buflen : Nat) (st : MRState) :
    ((handle_fields_body buflen st).st).data = st.data := by
  simp only [handle_fields_body]
  split_ifs <;> rfl

/-- One iteration of the field loop does not touch the discard flag. -/
theorem handle_fields_body_discard (buflen : Nat) (st : MRState) :
    ((handle_fields_body buflen st).st).discard = st.discard := by
  simp only [handle_fields_body]
  split_ifs <;> rfl

/-- The field-handling loop either keeps the buffer it started with or has
handed it on. -/
theorem handle_fields_loop_data (cfg : MRConfig) (buflen : Nat) (E : List Nat) :
    ∀ fuel st, st.data = some E ∨ st.data = none →
      (handle_fields_loop cfg buflen fuel st).1.data = some E
        ∨ (handle_fields_loop cfg buflen fuel st).1.data = none := by
  intro fuel
  induction fuel with
  | zero => intro st h; exact h
  | succ n ih =>
    intro st h
    have hd := handle_fields_body_data buflen st
    cases hact : handle_fields_body buflen st with
    | stop st1 =>
      rw [hact] at hd
      rw [LoopAct.st] at hd
      simp only [handle_fields_loop, hact]
      rw [hd]; exact h
    | send useOk st1 =>
      rw [hact] at hd
      rw [LoopAct.st] at hd
      simp only [handle_fields_loop, hact]
      exact ih _ (handle_rows_data cfg E st1 (by rw [hd]; exact h))
    | cont st1 =>
      rw [hact] at hd
      rw [LoopAct.st] at hd
      simp only [handle_fields_loop, hact]
      exact ih _ (by rw [hd]; exact h)

/-- Everything the field-handling loop sends upstream is either the buffer it
started with, whole, or the synthetic OK packet. -/
theorem handle_fields_loop_outs (cfg : MRConfig) (buflen : Nat) (E : List Nat) :
    ∀ fuel st, st.data = some E ∨ st.data = none →
      ∀ o ∈ (handle_fields_loop cfg buflen fuel st).2, o = E ∨ o = okBytes := by
  intro fuel
  induction fuel with
  | zero => intro st _ o ho; simp [handle_fields_loop] at ho
  | succ n ih =>
    intro st h
    have hd := handle_fields_body_data buflen st
    cases hact : handle_fields_body buflen st with
    | stop st1 =>
      intro o ho
      simp [handle_fields_loop, hact] at ho
    | send useOk st1 =>
      rw [hact] at hd
      rw [LoopAct.st] at hd
      simp only [handle_fields_loop, hact]
      intro o ho
      rcases List.mem_append.1 ho with ho1 | ho1
      · exact handle_rows_outs cfg E st1 (by rw [hd]; exact h) o ho1
      · exact ih _ (handle_rows_data cfg E st1 (by rw [hd]; exact h)) o ho1
    | cont st1 =>
      rw [hact] at hd
      rw [LoopAct.st] at hd
      simp only [handle_fields_loop, hact]
      exact ih _ (by rw [hd]; exact h)

/-- The field-handling loop never clears the discard flag. -/
theorem handle_fields_loop_discard (cfg : MRConfig) (buflen : Nat) :
    ∀ fuel st, st.discard = true →
      (handle_fields_loop cfg buflen fuel st).1.discard = true := by
  intro fuel
  induction fuel with
  | zero => intro st h; exact h
  | succ n ih =>
    intro st h
    have hdis := handle_fields_body_discard buflen st
    cases hact : handle_fields_body buflen st with
    | stop st1 =>
      rw [hact] at hdis
      rw [LoopAct.st] at hdis
      simp only [handle_fields_loop, hact]
      rw [hdis]; exact h
    | send useOk st1 =>
      rw [hact] at hdis
      rw [LoopAct.st] at hdis
      simp only [handle_fields_loop, hact]
      exact ih _ (handle_rows_discard cfg st1 (by rw [hdis]; exact h))
    | cont st1 =>
      rw [hact] at hdis
      rw [LoopAct.st] at hdis
      simp only [handle_fields_loop, hact]
      exact ih _ (by rw [hdis]; exact h)

/-- Wrapper-level restatements for `handle_expecting_fields`. -/
theorem handle_expecting_fields_data (cfg : MRConfig) (E : List Nat) (st : MRState)
    (h : st.data = some E ∨ st.data = none) :
    (handle_expecting_fields cfg st).1.data = some E
      ∨ (handle_expecting_fields cfg st).1.data = none :=
  handle_fields_loop_data cfg _ E _ st h

theorem handle_expecting_fields_outs (cfg : MRConfig) (E : List Nat) (st : MRState)
    (h : st.data = some E ∨ st.data = none) :
    ∀ o ∈ (handle_expecting_fields cfg st).2, o = E ∨ o = okBytes :=
  handle_fields_loop_outs cfg _ E _ st h

theorem handle_expecting_fields_discard (cfg : MRConfig) (st : MRState)
    (h : st.discard = true) : (handle_expecting_fields cfg st).1.discard = true :=
  handle_fields_loop_discard cfg _ _ st h

/-- Everything `handle_expecting_response` sends upstream is either the whole
pending buffer or the synthetic OK packet, and it never clears discard. -/
theorem handle_expecting_response_outs (cfg : MRConfig) (E : List Nat) (st : MRState)
    (h : st.data = some E ∨ st.data = none) :
    ∀ o ∈ (handle_expecting_response cfg st).2, o = E ∨ o = okBytes := by
  intro o
  simp only [handle_expecting_response]
  split_ifs <;>
    first
      | (intro ho; simp at ho; done)
      | (intro ho; exact Or.inr (by simpa [send_ok_upstream] using ho))
      | (intro ho; exact Or.inl (send_upstream_snd E _ (by exact h) o ho))
      | (intro ho
         refine handle_expecting_fields_outs cfg E _ ?_ o ho
         exact h)

theorem handle_expecting_response_discard (cfg : MRConfig) (st : MRState)
    (h : st.discard = true) : (handle_expecting_response cfg st).1.discard = true := by
  simp only [handle_expecting_response]
  split_ifs <;>
    first
      | exact h
      | exact handle_expecting_fields_discard cfg _ (by exact h)
      | simp [send_ok_upstream, send_upstream_fst, h]

/-- Claim C1 support: every buffer a single `clientReply` call hands upstream is
either the entire accumulated response (previous pending bytes plus the new
chunk) or the 11-byte synthetic OK packet. -/
theorem clientReply_outs (cfg : MRConfig) (st : MRState) (chunk : List Nat) :
    ∀ o ∈ (clientReply cfg st chunk).2,
      o = st.data.getD [] ++ chunk ∨ o = okBytes := by
  intro o
  simp only [clientReply]
  split_ifs <;>
    (cases hphase : (st.phase) <;>
      simp only [hphase] <;>
      intro ho <;>
      first
        | exact handle_expecting_fields_outs cfg _ _ (by exact Or.inl rfl) o ho
        | exact handle_expecting_response_outs cfg _ _ (by exact Or.inl rfl) o ho
        | exact handle_rows_outs cfg _ _ (by exact Or.inl rfl) o ho
        | exact Or.inl (send_upstream_snd _ _ (by exact Or.inl rfl) o ho))

/-- Claim C5 support: a `clientReply` call never clears the discard flag. -/
theorem clientReply_discard (cfg : MRConfig) (st : MRState) (chunk : List Nat)
    (h : st.discard = true) : (clientReply cfg st chunk).1.discard = true := by
  simp only [clientReply]
  split_ifs <;>
    (cases hphase : (st.phase) <;>
      simp only [hphase] <;>
      first
        | exact handle_expecting_fields_discard cfg _ (by first | rfl | exact h)
        | exact handle_expecting_response_discard cfg _ (by first | rfl | exact h)
        | exact handle_rows_discard cfg _ (by first | rfl | exact h)
        | simp [handle_expecting_nothing, handle_ignoring_response, send_upstream_fst, h])

/-! ### Step evaluation lemmas for the row loop -/

theorem handle_rows_loop_eq_stop (cfg : MRConfig) (buflen fuel : Nat) (st st1 : MRState)
    (hf : 0 < fuel) (h : handle_rows_body cfg buflen st = .stop st1) :
    handle_rows_loop cfg buflen fuel st = (st1, []) := by
  cases fuel with
  | zero => omega
  | succ n => simp [handle_rows_loop, h]

theorem handle_rows_loop_eq_send_ok (cfg : MRConfig) (buflen fuel : Nat) (st st1 : MRState)
    (hf : 0 < fuel) (h : handle_rows_body cfg buflen st = .send true st1) :
    handle_rows_loop cfg buflen fuel st =
      ((handle_rows_loop cfg buflen (fuel - 1) {st1 with data := none}).1,
        okBytes :: (handle_rows_loop cfg buflen (fuel - 1) {st1 with data := none}).2) := by
  cases fuel with
  | zero => omega
  | succ n => simp [handle_rows_loop, h, send_ok_upstream]

theorem handle_rows_loop_eq_cont (cfg : MRConfig) (buflen fuel : Nat) (st st1 : MRState)
    (hf : 0 < fuel) (h : handle_rows_body cfg buflen st = .cont st1) :
    handle_rows_loop cfg buflen fuel st = handle_rows_loop cfg buflen (fuel - 1) st1 := by
  cases fuel with
  | zero => omega
  | succ n => simp [handle_rows_loop, h]

/-- The loop guard fails: no complete header left at the offset. -/
theorem handle_rows_body_guard (cfg : MRConfig) (buflen : Nat) (st : MRState)
    (hg : ¬ 4 ≤ buflen - st.offset) :
    handle_rows_body cfg buflen st = .stop st := by
  simp [handle_rows_body, hg]

/-- A complete framed packet of maximal payload `0xFFFFFF` while not already in
a large-packet run: mark the run, skip the frame, leave the loop, count no row. -/
theorem handle_rows_body_large (cfg : MRConfig) (buflen : Nat) (st : MRState)
    (hg : 4 ≤ buflen - st.offset)
    (hPL : payloadLenOf (copyBytes st.data st.offset 9) = 0xffffff)
    (hc : st.offset + (4 + 0xffffff) ≤ buflen)
    (hlp : st.largePacket = false) :
    handle_rows_body cfg buflen st =
      .stop {st with largePacket := true, offset := st.offset + (4 + 0xffffff)} := by
  simp [handle_rows_body, hg, hPL, hc, hlp]

/-- A complete framed packet of payload `p < 5` while in a large-packet run:
the terminator of the logical row; count the row once and leave the loop. -/
theorem handle_rows_body_term (cfg : MRConfig) (buflen : Nat) (st : MRState) (p : Nat)
    (hg : 4 ≤ buflen - st.offset)
    (hPL : payloadLenOf (copyBytes st.data st.offset 9) = p)
    (hp : p < 5)
    (hc : st.offset + (4 + p) ≤ buflen)
    (hlp : st.largePacket = true) :
    handle_rows_body cfg buflen st =
      .stop {st with offset := st.offset + (4 + p), nRows := st.nRows + 1} := by
  simp [handle_rows_body, hg, hPL, hc, hlp]
  omega

/-- A complete row packet (first payload byte neither ERR nor EOF, not a
large-packet frame, no run pending): count the row and apply the row guard. -/
theorem handle_rows_body_row (cfg : MRConfig) (buflen : Nat) (st : MRState) (p : Nat)
    (hg : 4 ≤ buflen - st.offset)
    (hPL : payloadLenOf (copyBytes st.data st.offset 9) = p)
    (hmax : p ≠ 0xffffff)
    (hc : st.offset + (4 + p) ≤ buflen)
    (hlp : st.largePacket = false)
    (hcmd1 : byteAt (copyBytes st.data st.offset 9) 4 ≠ 0xff)
    (hcmd2 : byteAt (copyBytes st.data st.offset 9) 4 ≠ 0xfe) :
    handle_rows_body cfg buflen st =
      .cont (if st.discard = false ∧ cfg.maxRows < st.nRows + 1
             then {st with offset := st.offset + (4 + p), largePacket := false,
                           nRows := st.nRows + 1, discard := true}
             else {st with offset := st.offset + (4 + p), largePacket := false,
                           nRows := st.nRows + 1}) := by
  simp [handle_rows_body, hg, hPL, hc, hlp, hcmd1, hcmd2, hmax]
  omega

/-- A complete framed packet whose first payload byte is EOF (`0xFE`) but whose
framed length is smaller than the 9 bytes of a full EOF packet: the source
replies with the synthetic OK unconditionally. -/
theorem handle_rows_body_short_eof (cfg : MRConfig) (buflen : Nat) (st : MRState) (p : Nat)
    (hg : 4 ≤ buflen - st.offset)
    (hPL : payloadLenOf (copyBytes st.data st.offset 9) = p)
    (hp : p < 5)
    (hc : st.offset + (4 + p) ≤ buflen)
    (hlp : st.largePacket = false)
    (hcmd : byteAt (copyBytes st.data st.offset 9) 4 = 0xfe) :
    handle_rows_body cfg buflen st =
      .send true {st with offset := st.offset + (4 + p), largePacket := false,
                          phase := MRPhase.expectingNothing} := by
  have h1 : ¬ 4 + p = 16777219 := by omega
  have h2 : 4 + p < 9 := by omega
  simp [handle_rows_body, hg, hPL, hc, hlp, hcmd, h1, h2]

/-! ## Claim theorems -/

/-- Claim C1: for every client request and every fragmentation of the server's
reply bytes, the transducer (`clientReply`) delivers upstream for that response
either the exact concatenation of all buffered server packets, in order (the
previously pending bytes followed by the new chunk), or exactly the 11-byte
synthetic OK packet `07 00 00 01 00 00 00 02 00 00 00` — never a mixture of
forwarded and synthesized bytes.  Stated over every reachable or unreachable
session state, which covers every fragmentation. -/
theorem claim_C1 (cfg : MRConfig) (st : MRState) (chunk : List Nat) :
    ∀ o ∈ (clientReply cfg st chunk).2,
      o = st.data.getD [] ++ chunk ∨ o = okBytes :=
  clientReply_outs cfg st chunk

/-- Witness for C1: a concrete delivery that forwards the whole buffer. -/
theorem claim_C1_w :
    [1, 2, 3] ∈ (clientReply ⟨10, 100⟩
        ⟨none, 0, 0, 0, 0, MRPhase.ignoring, false, false⟩ [1, 2, 3]).2
      ∧ ([1, 2, 3] = ((none : Option (List Nat)).getD [] ++ [1, 2, 3])
          ∨ [1, 2, 3] = okBytes) :=
  ⟨by decide, claim_C1 ⟨10, 100⟩ ⟨none, 0, 0, 0, 0, MRPhase.ignoring, false, false⟩
    [1, 2, 3] [1, 2, 3] (by decide)⟩

/-- Claim C5: within a single response the discard flag is monotone — no
transition of the state machine (`clientReply` and every handler it dispatches
to) clears it; it is reset to false exactly when a new client request passes
through `routeQuery`. -/
theorem claim_C5 :
    (∀ (cfg : MRConfig) (st : MRState) (chunk : List Nat),
        st.discard = true → (clientReply cfg st chunk).1.discard = true)
      ∧ ∀ packet : List Nat, (routeQuery packet).discard = false :=
  ⟨clientReply_discard, fun _ => rfl⟩

/-- Witness for C5: a discarding row-phase state stays discarding across a
reply chunk, and a fresh request resets the flag. -/
theorem claim_C5_w :
    ((⟨some [1], 0, 0, 0, 0, MRPhase.expectingRows, false, true⟩ : MRState).discard = true)
      ∧ (clientReply ⟨5, 100⟩
          ⟨some [1], 0, 0, 0, 0, MRPhase.expectingRows, false, true⟩ [2]).1.discard = true
      ∧ (routeQuery [1, 0, 0, 0, 3]).discard = false :=
  ⟨rfl, claim_C5.1 ⟨5, 100⟩ ⟨some [1], 0, 0, 0, 0, MRPhase.expectingRows, false, true⟩ [2] rfl,
    claim_C5.2 [1, 0, 0, 0, 3]⟩

/-- Index arithmetic helper: reading at the length of a prefix reads the suffix. -/
theorem byteAt_at_length (l1 l2 : List Nat) (n i : Nat) (h : l1.length = n) :
    byteAt (l1 ++ l2) (n + i) = byteAt l2 i := by
  subst h; exact byteAt_append_add l1 l2 i

/-- Claim C10: in phase ExpectingRows, a complete framed packet whose opcode
byte is EOF (`0xFE`) but whose framed length (header plus payload) is smaller
than the 9-byte EOF packet makes the filter send the 11-byte synthetic OK
upstream and enter ExpectingNothing even though `discard` is false: the
buffered result set is dropped although no configured limit was exceeded. -/
theorem claim_C10 (cfg : MRConfig) (st : MRState) (pl : List Nat) (q : Nat)
    (hdata : st.data = some ([pl.length, 0, 0, q] ++ pl))
    (hoff : st.offset = 0)
    (hlp : st.largePacket = false)
    (hdis : st.discard = false)
    (hcmd : byteAt pl 0 = 0xfe)
    (hlen : pl.length ≤ 4) (hpos : 1 ≤ pl.length) :
    (handle_rows cfg st).2 = [okBytes]
      ∧ (handle_rows cfg st).1.phase = MRPhase.expectingNothing
      ∧ (handle_rows cfg st).1.data = none
      ∧ st.discard = false := by
  have hL : (st.data.getD []).length = 4 + pl.length := by rw [hdata]; simp; try omega
  have hPL : payloadLenOf (copyBytes st.data st.offset 9) = pl.length := by
    rw [payloadLenOf, byteAt_copyBytes _ _ _ _ (by omega), byteAt_copyBytes _ _ _ _ (by omega),
      byteAt_copyBytes _ _ _ _ (by omega), hdata, hoff]
    simp [byteAt]
  have hcmd4 : byteAt (copyBytes st.data st.offset 9) 4 = 0xfe := by
    rw [byteAt_copyBytes _ _ _ _ (by omega), hdata, hoff]
    simpa [byteAt] using hcmd
  have hbody := handle_rows_body_short_eof cfg (4 + pl.length) st pl.length
    (by omega) hPL (by omega) (by omega) hlp hcmd4
  simp only [handle_rows, hL]
  rw [handle_rows_loop_eq_send_ok _ _ _ _ _ (by omega) hbody]
  rw [handle_rows_loop_eq_stop _ _ _ _ _ (by omega)
    (handle_rows_body_guard _ _ _ (by simp; try omega))]
  simp [hdis]

/-- Witness for C10: a 1-byte EOF payload drops a pending response although no
limit was hit. -/
theorem claim_C10_w :
    byteAt [0xfe] 0 = 0xfe
      ∧ ((handle_rows ⟨5, 1000⟩
            ⟨some [1, 0, 0, 1, 0xfe], 0, 0, 0, 0, MRPhase.expectingRows, false, false⟩).2
              = [okBytes]
          ∧ (handle_rows ⟨5, 1000⟩
              ⟨some [1, 0, 0, 1, 0xfe], 0, 0, 0, 0, MRPhase.expectingRows, false, false⟩).1.phase
              = MRPhase.expectingNothing
          ∧ (handle_rows ⟨5, 1000⟩
              ⟨some [1, 0, 0, 1, 0xfe], 0, 0, 0, 0, MRPhase.expectingRows, false, false⟩).1.data
              = none
          ∧ (⟨some [1, 0, 0, 1, 0xfe], 0, 0, 0, 0, MRPhase.expectingRows, false, false⟩
              : MRState).discard = false) :=
  ⟨by decide, claim_C10 ⟨5, 1000⟩
    ⟨some [1, 0, 0, 1, 0xfe], 0, 0, 0, 0, MRPhase.expectingRows, false, false⟩
    [0xfe] 1 rfl rfl rfl rfl (by decide) (by decide) (by decide)⟩

/-- Claim C4: the row guard is strict.  Processing one complete row packet
increments the row counter once, and sets discard exactly when the incremented
counter strictly exceeds `max_resultset_rows` (so a result set with exactly
`max_resultset_rows` rows is forwarded, and with the limit configured as 0 any
row triggers discard). -/
theorem claim_C4 (cfg : MRConfig) (st : MRState) (pl : List Nat) (b0 b1 b2 q : Nat)
    (hdata : st.data = some ([b0, b1, b2, q] ++ pl))
    (hoff : st.offset = 0)
    (hlp : st.largePacket = false)
    (hdis : st.discard = false)
    (hlen : b0 + 256 * b1 + 65536 * b2 = pl.length)
    (hmax : pl.length < 0xffffff)
    (hcmd1 : byteAt pl 0 ≠ 0xff) (hcmd2 : byteAt pl 0 ≠ 0xfe) :
    (handle_rows cfg st).1.nRows = st.nRows + 1
      ∧ ((handle_rows cfg st).1.discard = true ↔ cfg.maxRows < st.nRows + 1)
      ∧ (handle_rows cfg st).2 = [] := by
  have hL : (st.data.getD []).length = 4 + pl.length := by rw [hdata]; simp; try omega
  have hPL : payloadLenOf (copyBytes st.data st.offset 9) = pl.length := by
    rw [payloadLenOf, byteAt_copyBytes _ _ _ _ (by omega), byteAt_copyBytes _ _ _ _ (by omega),
      byteAt_copyBytes _ _ _ _ (by omega), hdata, hoff]
    simpa [byteAt] using hlen
  have hcmd4 : byteAt (copyBytes st.data st.offset 9) 4 = byteAt pl 0 := by
    rw [byteAt_copyBytes _ _ _ _ (by omega), hdata, hoff]
    simp [byteAt]
  have hbody := handle_rows_body_row cfg (4 + pl.length) st pl.length
    (by omega) hPL (by omega) (by omega) hlp
    (by rw [hcmd4]; exact hcmd1) (by rw [hcmd4]; exact hcmd2)
  simp only [handle_rows, hL]
  rw [handle_rows_loop_eq_cont _ _ _ _ _ (by omega) hbody]
  by_cases hguard : st.discard = false ∧ cfg.maxRows < st.nRows + 1
  · rw [if_pos hguard]
    rw [handle_rows_loop_eq_stop _ _ _ _ _ (by omega)
      (handle_rows_body_guard _ _ _ (by simp; try omega))]
    simp [hguard.2]
  · rw [if_neg hguard]
    rw [handle_rows_loop_eq_stop _ _ _ _ _ (by omega)
      (handle_rows_body_guard _ _ _ (by simp; try omega))]
    push_neg at hguard
    have hnl : ¬ cfg.maxRows < st.nRows + 1 := fun hlt => by
      have := hguard hdis
      omega
    simp [hdis, hnl]

/-- Witness for C4: with `max_resultset_rows = 1`, the single (exactly-limit)
row does not trigger discard. -/
theorem claim_C4_w :
    (1 : Nat) + 256 * 0 + 65536 * 0 = ([0x41] : List Nat).length
      ∧ ((handle_rows ⟨1, 1000⟩
            ⟨some [1, 0, 0, 4, 0x41], 0, 0, 0, 0, MRPhase.expectingRows, false, false⟩).1.nRows
            = 0 + 1
          ∧ ((handle_rows ⟨1, 1000⟩
              ⟨some [1, 0, 0, 4, 0x41], 0, 0, 0, 0, MRPhase.expectingRows, false, false⟩).1.discard
              = true ↔ (1 : Nat) < 0 + 1)
          ∧ (handle_rows ⟨1, 1000⟩
              ⟨some [1, 0, 0, 4, 0x41], 0, 0, 0, 0, MRPhase.expectingRows, false, false⟩).2 = []) :=
  ⟨by decide, claim_C4 ⟨1, 1000⟩
    ⟨some [1, 0, 0, 4, 0x41], 0, 0, 0, 0, MRPhase.expectingRows, false, false⟩
    [0x41] 1 0 0 4 rfl rfl rfl rfl (by decide) (by decide) (by decide) (by decide)⟩

/-- Claim C3: a framed packet in ExpectingRows whose payload length equals
`0xFFFFFF` sets the large-packet flag, advances the cursor past the frame,
does not increment `n_rows`, and stops processing the chunk (bytes already
buffered after the frame are left untouched); the subsequent terminating frame
increments `n_rows` exactly once.  In particular a row of payload exactly
`0xFFFFFF` bytes followed by a zero-payload continuation yields one row, not
two. -/
theorem claim_C3 (cfg : MRConfig) (st : MRState) (pl extra : List Nat) (q1 : Nat)
    (hdata : st.data = some (([0xff, 0xff, 0xff, q1] ++ pl) ++ extra))
    (hoff : st.offset = 0)
    (hlp : st.largePacket = false)
    (hpl : pl.length = 0xffffff) :
    (handle_rows cfg st).1.offset = 4 + 0xffffff
      ∧ (handle_rows cfg st).1.nRows = st.nRows
      ∧ (handle_rows cfg st).1.largePacket = true
      ∧ (handle_rows cfg st).2 = []
      ∧ ∀ q2, extra = [0, 0, 0, q2] →
          (handle_rows cfg (handle_rows cfg st).1).1.nRows = st.nRows + 1
            ∧ (handle_rows cfg (handle_rows cfg st).1).1.offset = 4 + 0xffffff + 4
            ∧ (handle_rows cfg (handle_rows cfg st).1).2 = [] := by
  have hfr : ([0xff, 0xff, 0xff, q1] ++ pl).length = 4 + 0xffffff := by simp [hpl]
  have hL : (st.data.getD []).length = 4 + 0xffffff + extra.length := by
    rw [hdata]; simp [hpl]; omega
  have h0 : byteAt (copyBytes st.data st.offset 9) 0 = 255 := by
    rw [byteAt_copyBytes _ _ _ _ (by omega), hdata, hoff]; simp [byteAt]
  have h1 : byteAt (copyBytes st.data st.offset 9) 1 = 255 := by
    rw [byteAt_copyBytes _ _ _ _ (by omega), hdata, hoff]; simp [byteAt]
  have h2 : byteAt (copyBytes st.data st.offset 9) 2 = 255 := by
    rw [byteAt_copyBytes _ _ _ _ (by omega), hdata, hoff]; simp [byteAt]
  have hPL : payloadLenOf (copyBytes st.data st.offset 9) = 0xffffff := by
    rw [payloadLenOf, h0, h1, h2]
  have hbody := handle_rows_body_large cfg (4 + 0xffffff + extra.length) st
    (by omega) hPL (by omega) hlp
  have hr1 : handle_rows cfg st =
      ({st with largePacket := true, offset := st.offset + (4 + 0xffffff)}, []) := by
    simp only [handle_rows, hL]
    exact handle_rows_loop_eq_stop _ _ _ _ _ (by omega) hbody
  refine ⟨by rw [hr1]; simp [hoff], by rw [hr1], by rw [hr1], by rw [hr1], ?_⟩
  intro q2 hextra
  subst hextra
  set st1 : MRState := {st with largePacket := true, offset := st.offset + (4 + 0xffffff)}
    with hst1
  have hL2 : (st1.data.getD []).length = 4 + 0xffffff + 4 := by
    show (st.data.getD []).length = 4 + 0xffffff + 4
    rw [hL]; simp
  have hidx : ∀ i, st1.offset + i = ([0xff, 0xff, 0xff, q1] ++ pl).length + i := by
    intro i
    show st.offset + (4 + 0xffffff) + i = _
    rw [hfr, hoff]
  have hb0 : byteAt (copyBytes st1.data st1.offset 9) 0 = 0 := by
    rw [byteAt_copyBytes _ _ _ _ (by omega)]
    show byteAt (st.data.getD []) (st1.offset + 0) = 0
    rw [hidx 0, hdata]
    simp only [Option.getD_some]
    rw [byteAt_at_length _ _ _ _ rfl]
    simp [byteAt]
  have hb1 : byteAt (copyBytes st1.data st1.offset 9) 1 = 0 := by
    rw [byteAt_copyBytes _ _ _ _ (by omega)]
    show byteAt (st.data.getD []) (st1.offset + 1) = 0
    rw [hidx 1, hdata]
    simp only [Option.getD_some]
    rw [byteAt_at_length _ _ _ _ rfl]
    simp [byteAt]
  have hb2 : byteAt (copyBytes st1.data st1.offset 9) 2 = 0 := by
    rw [byteAt_copyBytes _ _ _ _ (by omega)]
    show byteAt (st.data.getD []) (st1.offset + 2) = 0
    rw [hidx 2, hdata]
    simp only [Option.getD_some]
    rw [byteAt_at_length _ _ _ _ rfl]
    simp [byteAt]
  have hPL2 : payloadLenOf (copyBytes st1.data st1.offset 9) = 0 := by
    rw [payloadLenOf, hb0, hb1, hb2]
  have hbody2 := handle_rows_body_term cfg (4 + 0xffffff + 4) st1 0
    (by show 4 ≤ 4 + 0xffffff + 4 - (st.offset + (4 + 0xffffff)); omega) hPL2 (by omega)
    (by show st.offset + (4 + 0xffffff) + (4 + 0) ≤ 4 + 0xffffff + 4; omega) rfl
  have hr2 : handle_rows cfg st1 =
      ({st1 with offset := st1.offset + (4 + 0), nRows := st1.nRows + 1}, []) := by
    simp only [handle_rows, hL2]
    exact handle_rows_loop_eq_stop _ _ _ _ _ (by omega) hbody2
  rw [hr1]
  refine ⟨by rw [hr2], by rw [hr2]; show st.offset + (4 + 0xffffff) + (4 + 0) = _; omega,
    by rw [hr2]⟩


/-- Witness for C3: a 16MiB-payload frame followed by a zero-payload
continuation counts as exactly one row. -/
theorem claim_C3_w :
    (List.replicate 0xffffff 0).length = 0xffffff
      ∧ (handle_rows ⟨100, 1000000000⟩
          ⟨some (([0xff, 0xff, 0xff, 1] ++ List.replicate 0xffffff 0) ++ [0, 0, 0, 2]),
            0, 0, 0, 0, MRPhase.expectingRows, false, false⟩).1.nRows = 0
      ∧ (handle_rows ⟨100, 1000000000⟩
          (handle_rows ⟨100, 1000000000⟩
            ⟨some (([0xff, 0xff, 0xff, 1] ++ List.replicate 0xffffff 0) ++ [0, 0, 0, 2]),
              0, 0, 0, 0, MRPhase.expectingRows, false, false⟩).1).1.nRows = 0 + 1 := by
  have h := claim_C3 ⟨100, 1000000000⟩
    ⟨some (([0xff, 0xff, 0xff, 1] ++ List.replicate 0xffffff 0) ++ [0, 0, 0, 2]),
      0, 0, 0, 0, MRPhase.expectingRows, false, false⟩
    (List.replicate 0xffffff 0) [0, 0, 0, 2] 1 rfl rfl rfl
    (List.length_replicate 0xffffff 0)
  exact ⟨List.length_replicate 0xffffff 0, h.2.1, (h.2.2.2.2 2 rfl).1⟩

/-- Claim C2 (code bug): in ExpectingResponse with a non-zero cursor (second
result set of a multi-result-set) and a multi-byte field-count length-encoded
integer, the extension bytes are read from the fixed buffer offset 5 instead of
the cursor.  Reached from a fresh request: the first chunk is a complete
one-column result set whose rows-EOF carries SERVER_MORE_RESULTS_EXIST, the
second chunk is the next result-set header claiming 300 columns
(`fc 2c 01`).  The filter decodes `n_totalfields = 2` (bytes at absolute
offsets 5 and 6, which belong to the first result set), while the
length-encoded integer at the cursor decodes to 300. -/
theorem claim_C2_bug :
    (clientReply ⟨1000, 100000⟩
        (clientReply ⟨1000, 100000⟩ (routeQuery [1, 0, 0, 0, 3])
          [1, 0, 0, 1, 1,
           2, 0, 0, 2, 0x61, 0x62,
           5, 0, 0, 3, 0xfe, 0, 0, 0, 0,
           5, 0, 0, 4, 0xfe, 0, 0, 8, 0]).1
        [3, 0, 0, 1, 0xfc, 0x2c, 0x01]).1.nTotal = 2
      ∧ (clientReply ⟨1000, 100000⟩ (routeQuery [1, 0, 0, 0, 3])
          [1, 0, 0, 1, 1,
           2, 0, 0, 2, 0x61, 0x62,
           5, 0, 0, 3, 0xfe, 0, 0, 0, 0,
           5, 0, 0, 4, 0xfe, 0, 0, 8, 0]).1.offset = 29
      ∧ mxs_leint_value
          (((clientReply ⟨1000, 100000⟩ (routeQuery [1, 0, 0, 0, 3])
              [1, 0, 0, 1, 1,
               2, 0, 0, 2, 0x61, 0x62,
               5, 0, 0, 3, 0xfe, 0, 0, 0, 0,
               5, 0, 0, 4, 0xfe, 0, 0, 8, 0]).1.data.getD []
            ++ [3, 0, 0, 1, 0xfc, 0x2c, 0x01]).drop (29 + 4)) = 300
      ∧ (2 : Nat) ≠ 300 := by
  refine ⟨by decide, by decide, by decide, by decide⟩

/-- Claim C6 (amended): for every input whose first byte is `0xFF`,
`mxs_leint_value` logs an error (modelled by the boolean flag) but still
returns the numeric value 0, and `mxs_leint_bytes` reports a width of 9; no
failure is signalled to the caller. -/
theorem claim_C6 (bs : List Nat) (h : byteAt bs 0 = 0xff) :
    mxs_leint_value_err bs = (0, true) ∧ mxs_leint_bytes bs = 9 := by
  constructor
  · simp [mxs_leint_value_err, h]
  · simp [mxs_leint_bytes, h]

/-- Witness for the amended C6. -/
theorem claim_C6_w :
    byteAt [0xff] 0 = 0xff
      ∧ (mxs_leint_value_err [0xff] = (0, true) ∧ mxs_leint_bytes [0xff] = 9) :=
  ⟨by decide, claim_C6 [0xff] (by decide)⟩

/-- Counterexample for C6 as stated: on an input starting with `0xFF` the
decoder does return a numeric value (0); it does not fail. -/
theorem claim_C6_cex :
    mxs_leint_value [0xff, 9, 9, 9, 9, 9, 9, 9, 9] = 0 := by decide

/-- The TTL store's timestamp suffix decodes to the stored timestamp. -/
theorem extract_timestamp_append (payload : List Nat) (ts : Nat)
    (h32 : ts < 2147483648) :
    extract_timestamp (payload ++ tsBytesLE ts) = (ts : Int) := by
  have hlen : (payload ++ tsBytesLE ts).length = payload.length + 4 := by
    simp [tsBytesLE]
  have h0 : byteAt (payload ++ tsBytesLE ts) (payload.length + 0) = ts % 256 := by
    rw [byteAt_append_add]; simp [tsBytesLE, byteAt]
  have h1 : byteAt (payload ++ tsBytesLE ts) (payload.length + 1) = ts / 256 % 256 := by
    rw [byteAt_append_add]; simp [tsBytesLE, byteAt]
  have h2 : byteAt (payload ++ tsBytesLE ts) (payload.length + 2) = ts / 65536 % 256 := by
    rw [byteAt_append_add]; simp [tsBytesLE, byteAt]
  have h3 : byteAt (payload ++ tsBytesLE ts) (payload.length + 3) = ts / 16777216 % 256 := by
    rw [byteAt_append_add]; simp [tsBytesLE, byteAt]
  simp only [extract_timestamp, hlen]
  rw [show payload.length + 4 - 4 = payload.length + 0 from by omega,
    show payload.length + 4 - 3 = payload.length + 1 from by omega,
    show payload.length + 4 - 2 = payload.length + 2 from by omega,
    show payload.length + 4 - 1 = payload.length + 3 from by omega,
    h0, h1, h2, h3]
  have hu : ts % 256 + 256 * (ts / 256 % 256) + 65536 * (ts / 65536 % 256)
      + 16777216 * (ts / 16777216 % 256) = ts := by omega
  rw [hu, if_pos h32]

/-- Dropping the timestamp suffix recovers the stored payload. -/
theorem value_take_payload (payload : List Nat) (ts : Nat) :
    (payload ++ tsBytesLE ts).take ((payload ++ tsBytesLE ts).length - TS_LENGTH)
      = payload := by
  have hlen : (payload ++ tsBytesLE ts).length - TS_LENGTH = payload.length := by
    simp [tsBytesLE, TS_LENGTH]
  rw [hlen, List.take_left]

/-- Claim C9: `get_value` TTL semantics for a stored entry with
`age = now - stored_ts`: if `hard_ttl > 0` and `age > hard_ttl` the entry is
deleted and NotFound returned; otherwise if `soft_ttl > 0` and `age > soft_ttl`
the value is returned as `Ok|Stale` when the caller passed INCLUDE_STALE and
`NotFound|Stale` without the value when not; otherwise the value is returned
with Ok.  A TTL configured as 0 never makes an entry stale. -/
theorem claim_C9 (hardTtl softTtl flags : Nat) (now : Int) (ts : Nat) (payload : List Nat)
    (hts : ts < 2147483648) :
    ((0 < hardTtl ∧ (hardTtl : Int) < now - ts) →
        get_value hardTtl softTtl flags now (some (payload ++ tsBytesLE ts))
          = (CACHE_RESULT_NOT_FOUND, none, true))
      ∧ ((hardTtl = 0 ∨ now - ts ≤ (hardTtl : Int)) →
          (0 < softTtl ∧ (softTtl : Int) < now - ts) →
          ((flags &&& CACHE_FLAGS_INCLUDE_STALE ≠ 0 →
              get_value hardTtl softTtl flags now (some (payload ++ tsBytesLE ts))
                = (CACHE_RESULT_OK ||| CACHE_RESULT_STALE, some payload, false))
            ∧ (flags &&& CACHE_FLAGS_INCLUDE_STALE = 0 →
              get_value hardTtl softTtl flags now (some (payload ++ tsBytesLE ts))
                = (CACHE_RESULT_NOT_FOUND ||| CACHE_RESULT_STALE, none, false))))
      ∧ ((hardTtl = 0 ∨ now - ts ≤ (hardTtl : Int)) →
          (softTtl = 0 ∨ now - ts ≤ (softTtl : Int)) →
          get_value hardTtl softTtl flags now (some (payload ++ tsBytesLE ts))
            = (CACHE_RESULT_OK, some payload, false)) := by
  have hext := extract_timestamp_append payload ts hts
  have htk := value_take_payload payload ts
  have hlen4 : TS_LENGTH ≤ (payload ++ tsBytesLE ts).length := by
    simp [tsBytesLE, TS_LENGTH]
  simp only [get_value, hext, htk, if_pos hlen4]
  refine ⟨?_, ?_, ?_⟩
  · rintro ⟨hpos, hage⟩
    have hh : (if hardTtl = 0 then false else decide ((hardTtl : Int) < now - ts)) = true := by
      rw [if_neg (by omega)]; simpa using hage
    rw [if_pos hh]
  · intro hnh ⟨hspos, hsage⟩
    have hh : (if hardTtl = 0 then false else decide ((hardTtl : Int) < now - ts)) = false := by
      by_cases h0 : hardTtl = 0
      · rw [if_pos h0]
      · rw [if_neg h0]
        simpa using hnh.resolve_left h0
    have hs : (if softTtl = 0 then false else decide ((softTtl : Int) < now - ts)) = true := by
      rw [if_neg (by omega)]; simpa using hsage
    constructor
    · intro hinc
      rw [if_neg (by simp [hh]), if_pos (by simp [hs, hinc]), if_pos hs]
    · intro hninc
      rw [if_neg (by simp [hh]), if_neg (by simp [hs, hninc])]
  · intro hnh hns
    have hh : (if hardTtl = 0 then false else decide ((hardTtl : Int) < now - ts)) = false := by
      by_cases h0 : hardTtl = 0
      · rw [if_pos h0]
      · rw [if_neg h0]
        simpa using hnh.resolve_left h0
    have hs : (if softTtl = 0 then false else decide ((softTtl : Int) < now - ts)) = false := by
      by_cases h0 : softTtl = 0
      · rw [if_pos h0]
      · rw [if_neg h0]
        simpa using hns.resolve_left h0
    rw [if_neg (by simp [hh]), if_pos (by simp [hs]), if_neg (by simp [hs])]



/-- Witness for C9: a hard-stale entry is deleted and reported NotFound. -/
theorem claim_C9_w :
    (80 : Nat) < 2147483648
      ∧ get_value 10 5 0 100 (some ([9, 9, 9] ++ tsBytesLE 80))
          = (CACHE_RESULT_NOT_FOUND, none, true) :=
  ⟨by decide, (claim_C9 10 5 0 100 80 [9, 9, 9] (by decide)).1 ⟨by decide, by decide⟩⟩

/-- Strict lexicographic byte order is irreflexive. -/
theorem ltBytes_irrefl : ∀ l : List Nat, ltBytes l l = false := by
  intro l
  induction l with
  | nil => rfl
  | cons a as ih => simp [ltBytes, ih]

/-- Strict lexicographic byte order is transitive. -/
theorem ltBytes_trans : ∀ a b c : List Nat,
    ltBytes a b = true → ltBytes b c = true → ltBytes a c = true := by
  intro a
  induction a with
  | nil =>
    intro b c hab hbc
    cases b with
    | nil => simp [ltBytes] at hab
    | cons y ys =>
      cases c with
      | nil => simp [ltBytes] at hbc
      | cons z zs => rfl
  | cons x xs ih =>
    intro b c hab hbc
    cases b with
    | nil => simp [ltBytes] at hab
    | cons y ys =>
      cases c with
      | nil => simp [ltBytes] at hbc
      | cons z zs =>
        simp only [ltBytes] at hab hbc ⊢
        split_ifs at hab hbc ⊢ <;>
          first
            | rfl
            | omega
            | exact ih ys zs hab hbc
            | simp_all

/-- Two byte strings neither of which is below the other are equal. -/
theorem ltBytes_eq_of_not : ∀ a b : List Nat,
    ltBytes a b = false → ltBytes b a = false → a = b := by
  intro a
  induction a with
  | nil =>
    intro b h1 _
    cases b with
    | nil => rfl
    | cons y ys => simp [ltBytes] at h1
  | cons x xs ih =>
    intro b h1 h2
    cases b with
    | nil => simp [ltBytes] at h2
    | cons y ys =>
      simp only [ltBytes] at h1 h2
      split_ifs at h1 h2 <;>
        first
          | (simp_all; done)
          | (have hxy : x = y := by omega
             rw [hxy, ih ys h1 h2])

/-- Strict lexicographic byte order is asymmetric. -/
theorem ltBytes_asymm (a b : List Nat) (h1 : ltBytes a b = true)
    (h2 : ltBytes b a = true) : False := by
  have := ltBytes_trans a b a h1 h2
  rw [ltBytes_irrefl] at this
  exact Bool.false_ne_true this

/-- Membership after a set insertion. -/
theorem mem_insertSet (x z : List Nat) :
    ∀ l : List (List Nat), z ∈ insertSet x l ↔ z = x ∨ z ∈ l := by
  intro l
  induction l with
  | nil => simp [insertSet]
  | cons y ys ih =>
    simp only [insertSet]
    split_ifs with h1 h2
    · constructor
      · intro h
        rcases List.mem_cons.1 h with h | h
        · exact Or.inl h
        · exact Or.inr h
      · intro h
        rcases h with h | h
        · exact List.mem_cons.2 (Or.inl h)
        · exact List.mem_cons.2 (Or.inr h)
    · subst h2
      constructor
      · exact Or.inr
      · intro h
        rcases h with h | h
        · exact h ▸ List.mem_cons_self _ _
        · exact h
    · constructor
      · intro h
        rcases List.mem_cons.1 h with h | h
        · exact Or.inr (List.mem_cons.2 (Or.inl h))
        · rcases ih.1 h with h | h
          · exact Or.inl h
          · exact Or.inr (List.mem_cons.2 (Or.inr h))
      · intro h
        rcases h with h | h
        · exact List.mem_cons.2 (Or.inr (ih.2 (Or.inl h)))
        · rcases List.mem_cons.1 h with h | h
          · exact h ▸ List.mem_cons_self _ _
          · exact List.mem_cons.2 (Or.inr (ih.2 (Or.inr h)))

/-- Set insertion preserves strict sortedness. -/
theorem pairwise_insertSet (x : List Nat) :
    ∀ l : List (List Nat), l.Pairwise (fun a b => ltBytes a b = true) →
      (insertSet x l).Pairwise (fun a b => ltBytes a b = true) := by
  intro l
  induction l with
  | nil => intro _; simp [insertSet]
  | cons y ys ih =>
    intro hp
    rw [List.pairwise_cons] at hp
    obtain ⟨hy, hys⟩ := hp
    simp only [insertSet]
    split_ifs with h1 h2
    · refine List.Pairwise.cons ?_ (List.Pairwise.cons hy hys)
      intro b hb
      rcases List.mem_cons.1 hb with rfl | hb
      · exact h1
      · exact ltBytes_trans x y b h1 (hy b hb)
    · exact List.Pairwise.cons hy hys
    · refine List.Pairwise.cons ?_ (ih hys)
      intro b hb
      rcases (mem_insertSet x b ys).1 hb with hbx | hb
      · subst hbx
        by_cases hyx : ltBytes y b = true
        · exact hyx
        · exact absurd (ltBytes_eq_of_not b y (by simpa using h1) (by simpa using hyx)) h2
      · exact hy b hb

/-- The insertion loop builds a strictly sorted list. -/
theorem pairwise_foldl_insertSet :
    ∀ (l acc : List (List Nat)),
      acc.Pairwise (fun a b => ltBytes a b = true) →
      (l.foldl (fun s db => insertSet db s) acc).Pairwise (fun a b => ltBytes a b = true) := by
  intro l
  induction l with
  | nil => intro acc h; exact h
  | cons t ts ih => intro acc h; exact ih _ (pairwise_insertSet t acc h)

/-- Membership after the insertion loop. -/
theorem mem_foldl_insertSet :
    ∀ (l acc : List (List Nat)) (z : List Nat),
      z ∈ l.foldl (fun s db => insertSet db s) acc ↔ z ∈ acc ∨ z ∈ l := by
  intro l
  induction l with
  | nil => intro acc z; simp
  | cons t ts ih =>
    intro acc z
    simp only [List.foldl_cons]
    rw [ih, mem_insertSet]
    simp only [List.mem_cons]
    tauto

/-- Two strictly sorted lists with the same members are equal: the canonical
form of the database set is unique. -/
theorem sorted_unique : ∀ l1 l2 : List (List Nat),
    l1.Pairwise (fun a b => ltBytes a b = true) →
    l2.Pairwise (fun a b => ltBytes a b = true) →
    (∀ z, z ∈ l1 ↔ z ∈ l2) → l1 = l2 := by
  intro l1
  induction l1 with
  | nil =>
    intro l2 _ _ hmem
    cases l2 with
    | nil => rfl
    | cons b bs => exact absurd ((hmem b).2 (List.mem_cons_self _ _)) (List.not_mem_nil b)
  | cons a as ih =>
    intro l2 h1 h2 hmem
    cases l2 with
    | nil => exact absurd ((hmem a).1 (List.mem_cons_self _ _)) (List.not_mem_nil a)
    | cons b bs =>
      rw [List.pairwise_cons] at h1 h2
      obtain ⟨ha, has⟩ := h1
      obtain ⟨hb, hbs⟩ := h2
      have hab : a = b := by
        rcases List.mem_cons.1 ((hmem a).1 (List.mem_cons_self _ _)) with h | hA
        · exact h
        · rcases List.mem_cons.1 ((hmem b).2 (List.mem_cons_self _ _)) with h | hB
          · exact h.symm
          · exact (ltBytes_asymm a b (ha b hB) (hb a hA)).elim
      subst hab
      have htails : ∀ z, z ∈ as ↔ z ∈ bs := by
        intro z
        constructor
        · intro hz
          rcases List.mem_cons.1 ((hmem z).1 (List.mem_cons.2 (Or.inr hz))) with hza | h
          · subst hza
            have := ha z hz
            rw [ltBytes_irrefl] at this
            exact absurd this Bool.false_ne_true
          · exact h
        · intro hz
          rcases List.mem_cons.1 ((hmem z).2 (List.mem_cons.2 (Or.inr hz))) with hza | h
          · subst hza
            have := hb z hz
            rw [ltBytes_irrefl] at this
            exact absurd this Bool.false_ne_true
          · exact h
      rw [ih bs has hbs htails]

/-- Claim C7: the fingerprinter is invariant under permutation and duplication
of the classifier's table list.  For every default database, query, and two
classifier outputs denoting the same set of referenced databases (equal
`toFinset` of the contributed database names), `Get_key` produces identical key
bytes; the first half of the key is the hash of the lexicographically sorted,
separator-free concatenation of the database names (the sorted canonical list,
concatenated by `flatten`). -/
theorem claim_C7 (defaultDb : Option (List Nat)) (sql : List Nat)
    (ts1 ts2 : List (List Nat))
    (h : (rawDbs defaultDb ts1).toFinset = (rawDbs defaultDb ts2).toFinset) :
    Get_key defaultDb sql ts1 = Get_key defaultDb sql ts2
      ∧ (Get_key defaultDb sql ts1).2
          = sha512 (collectDbs defaultDb ts1).flatten ++ sha512 sql
      ∧ (collectDbs defaultDb ts1).Pairwise (fun a b => ltBytes a b = true) := by
  have hmem : ∀ z, z ∈ rawDbs defaultDb ts1 ↔ z ∈ rawDbs defaultDb ts2 := by
    intro z
    rw [← List.mem_toFinset, h, List.mem_toFinset]
  have hp1 := pairwise_foldl_insertSet (rawDbs defaultDb ts1) [] List.Pairwise.nil
  have hp2 := pairwise_foldl_insertSet (rawDbs defaultDb ts2) [] List.Pairwise.nil
  have hcoll : collectDbs defaultDb ts1 = collectDbs defaultDb ts2 := by
    apply sorted_unique _ _ hp1 hp2
    intro z
    show z ∈ (rawDbs defaultDb ts1).foldl (fun s db => insertSet db s) []
        ↔ z ∈ (rawDbs defaultDb ts2).foldl (fun s db => insertSet db s) []
    rw [mem_foldl_insertSet, mem_foldl_insertSet]
    simp only [List.not_mem_nil, false_or]
    exact hmem z
  exact ⟨by simp [Get_key, hcoll], rfl, hp1⟩

/-- Witness for C7: spec scenario 6, classifier order `db2.t, db1.t` versus
`db1.t, db2.t` under default database `db0`. -/
theorem claim_C7_w :
    (rawDbs (some [100, 98, 48]) [[100, 98, 50, 46, 116], [100, 98, 49, 46, 116]]).toFinset
        = (rawDbs (some [100, 98, 48]) [[100, 98, 49, 46, 116], [100, 98, 50, 46, 116]]).toFinset
      ∧ Get_key (some [100, 98, 48]) [7, 7] [[100, 98, 50, 46, 116], [100, 98, 49, 46, 116]]
        = Get_key (some [100, 98, 48]) [7, 7] [[100, 98, 49, 46, 116], [100, 98, 50, 46, 116]] :=
  ⟨by decide, (claim_C7 (some [100, 98, 48]) [7, 7]
    [[100, 98, 50, 46, 116], [100, 98, 49, 46, 116]]
    [[100, 98, 49, 46, 116], [100, 98, 50, 46, 116]] (by decide)).1⟩

/-- Claim C8 (amended): when the classifier yields no tables and no default
database is set, `Get_key` never fails (returns `CACHE_RESULT_OK`), and the key
is `SHA512(empty tag) || SHA512(sql)` — the zero-initialised buffer is
overwritten by both digests, so the key is not all zero bytes. -/
theorem claim_C8 (sql : List Nat) :
    Get_key none sql [] = (CACHE_RESULT_OK, sha512 [] ++ sha512 sql) := rfl

set_option maxRecDepth 100000 in
/-- Counterexample for C8 as stated: the key returned for no tables, no default
database and an empty query is not the all-zero key (its first half is the
SHA-512 digest of the empty string). -/
theorem claim_C8_cex : (Get_key none [] []).2 ≠ List.replicate 128 0 := by decide


end MaxScale
